import Mathlib

/-!
Shallow embedding of the `ContadorStats` durable-object stats aggregator
(`src/worker.js`, with the earlier heartbeat variant from
`src/unnamed/part_000` embedded alongside for comparison).

JavaScript `Map`s are modelled as association lists with `Map.set`
semantics (replace in place when the key exists, append otherwise),
JavaScript `Set`s as insertion-ordered duplicate-free lists, and string
parameters that may be `undefined` as `Option String` (template-literal
interpolation of `undefined` yields the string "undefined").  Calendar
formatting (`toDateString`, hour keys, ISO timestamps) is supplied by the
environment, so operations receive the formatted strings, and
`getDetailedStats` receives the key-formatting functions, as inputs.
-/

/-- JS string interpolation of a possibly-undefined value. -/
def jsStr : Option String → String
  | none => "undefined"
  | some s => s

/-- JS falsiness for an optional string parameter: `undefined` and `""`. -/
def falsy : Option String → Bool
  | none => true
  | some s => s = ""

/-- First-match lookup in an association list (JS `Map.get`). -/
def alookup (l : List (String × α)) (k : String) : Option α :=
  match l with
  | [] => none
  | kv :: rest => if kv.1 = k then some kv.2 else alookup rest k

/-- JS `Map.set`: replace in place when the key exists, append otherwise. -/
def aset (l : List (String × α)) (k : String) (v : α) : List (String × α) :=
  match alookup l k with
  | some _ => l.map (fun kv => if kv.1 = k then (k, v) else kv)
  | none => l ++ [(k, v)]

/-- JS `Set.add` on an insertion-ordered representation. -/
def saddO (l : List (Option String)) (x : Option String) : List (Option String) :=
  if x ∈ l then l else l ++ [x]

/-- A day bucket's unique-participant field: a live `Set` in fresh state,
but a plain array after a snapshot restore (the load path never decodes). -/
inductive UUField where
  | set (l : List (Option String))
  | arr (l : List (Option String))
deriving DecidableEq

/-- Whether the field is still a live JS `Set`. -/
def UUField.isSet : UUField → Bool
  | .set _ => true
  | .arr _ => false

/-- JS `x.size`: defined on a `Set`, `undefined` on an array. -/
def UUField.sizeQ : UUField → Option Nat
  | .set l => some l.length
  | .arr _ => none

structure HourStat where
  hour : String
  count : Nat
  timestamp : String
deriving DecidableEq

structure DayStat where
  date : String
  count : Nat
  uniqueUsers : UUField
deriving DecidableEq

structure UserRec where
  userId : Option String
  playerName : String
  firstSeen : String
  lastSeen : String
  totalExecutions : Nat
  sessions : List (Option String)
deriving DecidableEq

structure SessionRec where
  userId : Option String
  playerName : String
  lastHeartbeat : Int
  created : Int
  gameId : Option String
  lastActivity : Int
deriving DecidableEq

/-- The aggregator state `this.stats` of `ContadorStats` (src/worker.js). -/
structure Stats where
  total : Nat
  today : Nat
  online : Nat
  uniqueUsers : List (String × UserRec)
  sessions : List (String × SessionRec)
  hourlyStats : List (String × HourStat)
  dailyStats : List (String × DayStat)
  peakOnline : Nat
  peakToday : Nat
  lastReset : String
  requestsCount : Nat
deriving DecidableEq

/-- The zero state installed by the constructor when no snapshot exists;
`d` is `new Date().toDateString()` at construction time. -/
def initStats (d : String) : Stats :=
  { total := 0, today := 0, online := 0, uniqueUsers := [], sessions := [],
    hourlyStats := [], dailyStats := [], peakOnline := 0, peakToday := 0,
    lastReset := d, requestsCount := 0 }

/-- The expiry sweep of `cleanupSessions` (src/worker.js lines 270-293):
drop every session with `now - lastHeartbeat > 90000`, then set `online`
to the remaining count - without the state effect of the method's
conditional fire-and-forget `saveStats` call, which synchronously encodes
the live day buckets in place; `cleanupSessionsM` models the whole
method, save effect included. -/
def cleanupSessions (now : Int) (s : Stats) : Stats :=
  let keep := s.sessions.filter (fun kv => !(decide (90000 < now - kv.2.lastHeartbeat)))
  { s with sessions := keep, online := keep.length }

/-- The reset step of `checkDailyReset` (src/worker.js lines 295-303),
without the state effect of its fire-and-forget `saveStats` call;
`checkDailyResetM` models the whole method.  `d` is the current
`toDateString()` value. -/
def checkDailyReset (d : String) (s : Stats) : Stats :=
  if s.lastReset ≠ d then { s with today := 0, peakToday := 0, lastReset := d }
  else s

/-- Event parameters plus the environment-formatted times for one
`incrementCounters` call. -/
structure EvtParams where
  userId : Option String
  playerName : Option String
  sessionId : Option String
  gameId : Option String
  nowMs : Int
  todayStr : String
  hourKey : String
  iso : String

/-- `playerName || User_${userId}`. -/
def defaultName (pn : Option String) (uid : Option String) : String :=
  match pn with
  | some n => if n = "" then "User_" ++ jsStr uid else n
  | none => "User_" ++ jsStr uid

/-- The hourly-bucket update block of `incrementCounters`. -/
def bumpHour (hourKey iso : String) (s : Stats) : Stats :=
  match alookup s.hourlyStats hourKey with
  | none =>
    { s with hourlyStats := aset s.hourlyStats hourKey ⟨hourKey, 1, iso⟩ }
  | some h =>
    { s with hourlyStats := aset s.hourlyStats hourKey ⟨h.hour, h.count + 1, iso⟩ }

/-- The daily-bucket update block of `incrementCounters`.  When the stored
bucket's unique-participant field is a restored array rather than a `Set`,
`dayStat.uniqueUsers.add(userId)` throws a `TypeError`. -/
def bumpDay (d : String) (uid : Option String) (s : Stats) : Except String Stats :=
  match alookup s.dailyStats d with
  | none =>
    .ok { s with dailyStats := aset s.dailyStats d ⟨d, 1, .set [uid]⟩ }
  | some ds =>
    match ds.uniqueUsers with
    | .set l =>
      .ok { s with dailyStats :=
              (aset s.dailyStats d ⟨ds.date, ds.count + 1, .set (saddO l uid)⟩) }
    | .arr _ => .error "TypeError: dayStat.uniqueUsers.add is not a function"

/-- The unique-user upsert block of `incrementCounters`. -/
def upsertUser (p : EvtParams) (s : Stats) : Stats :=
  let userKey := "user_" ++ jsStr p.userId
  match alookup s.uniqueUsers userKey with
  | none =>
    { s with uniqueUsers := (aset s.uniqueUsers userKey
        ⟨p.userId, defaultName p.playerName p.userId, p.iso, p.iso, 1, [p.sessionId]⟩) }
  | some u =>
    { s with uniqueUsers := (aset s.uniqueUsers userKey
        ⟨u.userId, u.playerName, u.firstSeen, p.iso, u.totalExecutions + 1,
         if p.sessionId ∈ u.sessions then u.sessions else u.sessions ++ [p.sessionId]⟩) }

/-- The `if (sessionId)` session upsert block of `incrementCounters`. -/
def touchSession (p : EvtParams) (s : Stats) : Stats :=
  if falsy p.sessionId then s
  else
    let s1 := { s with sessions := (aset s.sessions (jsStr p.sessionId)
                  ⟨p.userId, defaultName p.playerName p.userId, p.nowMs, p.nowMs,
                   p.gameId, p.nowMs⟩) }
    let s2 := { s1 with online := s1.sessions.length }
    if s2.online > s2.peakOnline then { s2 with peakOnline := s2.online } else s2

structure IncStats where
  total : Nat
  today : Nat
  online : Nat
  unique : Nat
  yourTotal : Nat
deriving DecidableEq

structure IncResult where
  success : Bool
  stats : IncStats
  timestamp : String
deriving DecidableEq

/-- The result document built at the end of `incrementCounters`
(`yourTotal` is `get(userKey)?.totalExecutions || 1`). -/
def mkIncResult (p : EvtParams) (s : Stats) : IncResult :=
  let userKey := "user_" ++ jsStr p.userId
  let yt := match alookup s.uniqueUsers userKey with
    | none => 1
    | some u => if u.totalExecutions = 0 then 1 else u.totalExecutions
  ⟨true, ⟨s.total, s.today, s.online, s.uniqueUsers.length, yt⟩, p.iso⟩

/-- The `total++ / today++ / requestsCount++` block of
`incrementCounters`. -/
def incTotals (s : Stats) : Stats :=
  { s with total := s.total + 1, today := s.today + 1,
           requestsCount := s.requestsCount + 1 }

/-- The `peakToday` high-water update of `incrementCounters`. -/
def updPeakToday (s : Stats) : Stats :=
  if s.today > s.peakToday then { s with peakToday := s.today } else s

/-- `incrementCounters` (src/worker.js lines 93-187) with every
`saveStats` state effect omitted: the returned state is exactly the one
the trailing awaited save receives on runs where no pre-step save fires;
a `TypeError` escaping the method is an `.error`.  `recordEventM` models
the full method, the saves' in-place day-bucket encoding and the partial
daily update preceding a `TypeError` included. -/
def incrementCounters (p : EvtParams) (s0 : Stats) : Except String (IncResult × Stats) :=
  let sd := bumpHour p.hourKey p.iso
    (updPeakToday (incTotals (checkDailyReset p.todayStr (cleanupSessions p.nowMs s0))))
  match bumpDay p.todayStr p.userId sd with
  | .error e => .error e
  | .ok se =>
    let sf := touchSession p (upsertUser p se)
    .ok (mkIncResult p sf, sf)

structure CounterView where
  total : Nat
  today : Nat
  online : Nat
  unique : Nat
  peakOnline : Nat
  peakToday : Nat
  lastUpdate : String
  sessionsCount : Nat
deriving DecidableEq

/-- `getCounterStats` (src/worker.js lines 189-204). -/
def getCounterStats (t : Int) (d iso : String) (s0 : Stats) : CounterView × Stats :=
  let s := checkDailyReset d (cleanupSessions t s0)
  (⟨s.total, s.today, s.online, s.uniqueUsers.length, s.peakOnline, s.peakToday,
    iso, s.sessions.length⟩, s)

structure HourEntry where
  hour : String
  count : Nat
  date : String
deriving DecidableEq

structure DayEntry where
  date : String
  count : Nat
  unique : Option Nat
deriving DecidableEq

/-- The `for (let i = 11; i >= 0; i--)` hourly loop of `getDetailedStats`
(src/worker.js lines 210-224).  `hKey h` is the bucket key of the calendar
hour `h` hours after the epoch and `hLabel h` its display label; the loop
pushes the entry for `now.getHours() - i`. -/
def trailingHours (hKey hLabel : Int → String) (nowH : Int)
    (hs : List (String × HourStat)) : List HourEntry :=
  (List.range 12).foldl
    (fun acc j =>
      acc ++ [⟨hLabel (nowH - (11 - (j : Int))),
              ((alookup hs (hKey (nowH - (11 - (j : Int))))).map HourStat.count).getD 0,
              hKey (nowH - (11 - (j : Int)))⟩])
    []

/-- The `for (let i = 6; i >= 0; i--)` daily loop of `getDetailedStats`;
the `unique` field is `undefined` (`none`) when a restored bucket holds an
array instead of a `Set`. -/
def trailingDays (dKey : Int → String) (nowD : Int)
    (ds : List (String × DayStat)) : List DayEntry :=
  (List.range 7).foldl
    (fun acc j =>
      let d : Int := nowD - (6 - (j : Int))
      let dk := dKey d
      acc ++ [⟨(dk.drop 4).take 6,
               ((alookup ds dk).map DayStat.count).getD 0,
               match alookup ds dk with
               | none => some 0
               | some v => v.uniqueUsers.sizeQ⟩])
    []

structure SummaryView where
  total : Nat
  today : Nat
  online : Nat
  unique : Nat
  peakOnline : Nat
  peakToday : Nat
  requestsCount : Nat
  lastReset : String
  activeSessions : Nat
deriving DecidableEq

structure DetailReport where
  summary : SummaryView
  hourly : List HourEntry
  daily : List DayEntry
  currentHourCount : Nat
  currentHourKey : String
  lastUpdate : String
deriving DecidableEq

/-- `getDetailedStats` (src/worker.js lines 206-267); `nowH`/`nowD` are the
absolute hour and day of `now` and `hKey`/`hLabel`/`dKey` the environment's
calendar formatting. -/
def getDetailedStats (hKey hLabel dKey : Int → String) (nowH nowD : Int)
    (t : Int) (d iso : String) (s0 : Stats) : DetailReport × Stats :=
  let s := checkDailyReset d (cleanupSessions t s0)
  (⟨⟨s.total, s.today, s.online, s.uniqueUsers.length, s.peakOnline, s.peakToday,
     s.requestsCount, s.lastReset, s.sessions.length⟩,
    trailingHours hKey hLabel nowH s.hourlyStats,
    trailingDays dKey nowD s.dailyStats,
    ((alookup s.hourlyStats (hKey nowH)).map HourStat.count).getD 0,
    hKey nowH, iso⟩, s)

structure HBResult where
  success : Bool
  online : Nat
  message : Option String
deriving DecidableEq

/-- The `for ... of sessions` loop with `break` in `updateHeartbeat`'s
else-branch: refresh the first session owned by `uid`, reporting whether
one was found. -/
def refreshFirstUserSession (uid : Option String) (t : Int) :
    List (String × SessionRec) → Bool × List (String × SessionRec)
  | [] => (false, [])
  | (k, sess) :: rest =>
    if sess.userId = uid then
      (true, (k, { sess with lastHeartbeat := t, lastActivity := t }) :: rest)
    else
      let r := refreshFirstUserSession uid t rest
      (r.1, (k, sess) :: r.2)

/-- `updateHeartbeat` (src/worker.js lines 305-365): the improved variant,
which refreshes any existing session without checking ownership. -/
def updateHeartbeat (sid uid : Option String) (t : Int) (s0 : Stats) :
    HBResult × Stats :=
  if falsy sid || falsy uid then (⟨false, s0.online, none⟩, s0)
  else
    let s := cleanupSessions t s0
    match alookup s.sessions (jsStr sid) with
    | some sess =>
      let s2 := { s with sessions := (aset s.sessions (jsStr sid)
                    { sess with lastHeartbeat := t, lastActivity := t }) }
      (⟨true, s2.online, some "Heartbeat actualizado"⟩, s2)
    | none =>
      let fr := refreshFirstUserSession uid t s.sessions
      if fr.1 then
        let s2 := { s with sessions := fr.2 }
        (⟨true, s2.online, some "Sesion del usuario actualizada"⟩, s2)
      else
        let s2 := { s with sessions := (aset s.sessions (jsStr sid)
                      ⟨uid, "User_" ++ jsStr uid, t, t, none, t⟩) }
        let s3 := { s2 with online := s2.sessions.length }
        let s4 := if s3.online > s3.peakOnline then { s3 with peakOnline := s3.online }
                  else s3
        (⟨true, s4.online, some "Nueva sesion creada"⟩, s4)

/-- `cleanupSessions` of the earlier variant
(src/unnamed/part_000 lines 258-266): 45-second window. -/
def cleanupSessionsV0 (now : Int) (s : Stats) : Stats :=
  let keep := s.sessions.filter (fun kv => !(decide (45000 < now - kv.2.lastHeartbeat)))
  { s with sessions := keep, online := keep.length }

/-- `updateHeartbeat` of the earlier variant
(src/unnamed/part_000 lines 277-290): refreshes only when the stored
session's `userId` matches the caller, otherwise `success:false`. -/
def updateHeartbeatV0 (sid uid : Option String) (t : Int) (s0 : Stats) :
    HBResult × Stats :=
  let s := cleanupSessionsV0 t s0
  if falsy sid then (⟨false, s.online, none⟩, s)
  else
    match alookup s.sessions (jsStr sid) with
    | some sess =>
      if sess.userId = uid then
        let s2 := { s with sessions := (aset s.sessions (jsStr sid)
                      { sess with lastHeartbeat := t }) }
        (⟨true, s2.online, none⟩, s2)
      else (⟨false, s.online, none⟩, s)
    | none => (⟨false, s.online, none⟩, s)

/-- The per-day-bucket encoding step of `saveStats`: `Array.from` on a
live `Set`, identity on an already-encoded array.  In the source this
assignment hits the bucket object shared between `toSave` and the live
`Map`, so it mutates `this.stats` as well. -/
def encodeDailyVal (d : DayStat) : DayStat :=
  match d.uniqueUsers with
  | .set l => { d with uniqueUsers := .arr l }
  | .arr _ => d

/-- The encoded state `saveStats` (src/worker.js lines 367-398) produces:
each day bucket's `Set` replaced by an array.  Because `toSave` shares the
live bucket objects, this is simultaneously the persisted document and
the live in-memory state left behind by any `saveStats` call - including
the fire-and-forget ones, and calls whose put later fails, since the
encoding loop runs synchronously before the put. -/
def saveDoc (s : Stats) : Stats :=
  { s with dailyStats := s.dailyStats.map (fun kv => (kv.1, encodeDailyVal kv.2)) }

/-- `saveStats` with an explicit storage outcome and store: the encoding
loop mutates the live state to `saveDoc s` in every case; on success the
document replaces the store and `true` is returned, on failure the store
is kept and the `catch` turns the put error into the return value
`false`.  Returns (boolean result, store after, live state after). -/
def saveStats (ok : Bool) (store : Option Stats) (s : Stats) :
    Bool × Option Stats × Stats :=
  if ok then (true, some (saveDoc s), saveDoc s) else (false, store, saveDoc s)

/-- `new Map(Object.entries(x))` in the constructor's restore path. -/
def newMapOfEntries (l : List (String × α)) : List (String × α) :=
  l.foldl (fun m kv => aset m kv.1 kv.2) []

/-- The constructor's restore path (src/worker.js lines 10-17): each stored
collection is rebuilt as a `Map`, but day buckets' unique-participant
arrays are never decoded back into `Set`s. -/
def loadStats (saved : Stats) : Stats :=
  { saved with
    uniqueUsers := newMapOfEntries saved.uniqueUsers,
    sessions := newMapOfEntries saved.sessions,
    hourlyStats := newMapOfEntries saved.hourlyStats,
    dailyStats := newMapOfEntries saved.dailyStats }

/-- `incrementCounters` followed by its trailing `saveStats`, the boolean
save result discarded exactly as in the source: the returned state is the
one the save left behind (day buckets encoded in place), alongside the
store.  This is the result/store path of runs in which no pre-step save
interferes with the daily bucket; `recordEventM` is the untracked-store
model of the full method on all runs. -/
def incrementCountersD (ok : Bool) (p : EvtParams) (s : Stats) (store : Option Stats) :
    Except String (IncResult × Stats × Option Stats) :=
  match incrementCounters p s with
  | .error e => .error e
  | .ok (r, s2) => .ok (r, (saveStats ok store s2).2.2, (saveStats ok store s2).2.1)

/-- `updateHeartbeat` with its `saveStats` calls made explicit: the early
validation return writes and mutates nothing; every other branch saves,
discarding the boolean, so the state component carries the save's
in-place day-bucket encoding.  (The sweep's own conditional save only
re-encodes day buckets, which the trailing save does anyway, so encoding
once at the end yields the same state.) -/
def updateHeartbeatD (ok : Bool) (sid uid : Option String) (t : Int) (s : Stats)
    (store : Option Stats) : HBResult × Stats × Option Stats :=
  if falsy sid || falsy uid then (⟨false, s.online, none⟩, s, store)
  else
    let r := updateHeartbeat sid uid t s
    (r.1, (saveStats ok store r.2).2.2, (saveStats ok store r.2).2.1)

/-- `cleanupSessions` as the full method: the sweep and, when at least one
session was deleted, the state effect of the fire-and-forget `saveStats`,
which synchronously encodes every live day-bucket `Set` to an array in
place before its put suspends (the written document is not tracked
here). -/
def cleanupSessionsM (now : Int) (s : Stats) : Stats :=
  let keep := s.sessions.filter (fun kv => !(decide (90000 < now - kv.2.lastHeartbeat)))
  let s1 := { s with sessions := keep, online := keep.length }
  if keep.length < s.sessions.length then saveDoc s1 else s1

/-- `checkDailyReset` as the full method: on a date change, the reset
plus the state effect of its fire-and-forget `saveStats` (the in-place
encoding of the day buckets). -/
def checkDailyResetM (d : String) (s : Stats) : Stats :=
  if s.lastReset ≠ d then saveDoc { s with today := 0, peakToday := 0, lastReset := d }
  else s

/-- The daily-bucket block with its in-place partial effect: the bucket's
`count` is incremented before `uniqueUsers.add` runs, so when the field
is an already-encoded array the `TypeError` fires with the count already
bumped.  The boolean reports whether the block completed. -/
def bumpDayM (d : String) (uid : Option String) (s : Stats) : Bool × Stats :=
  match alookup s.dailyStats d with
  | none => (true, { s with dailyStats := aset s.dailyStats d ⟨d, 1, .set [uid]⟩ })
  | some ds =>
    match ds.uniqueUsers with
    | .set l =>
      (true, { s with dailyStats :=
                 (aset s.dailyStats d ⟨ds.date, ds.count + 1, .set (saddO l uid)⟩) })
    | .arr l =>
      (false, { s with dailyStats :=
                  (aset s.dailyStats d ⟨ds.date, ds.count + 1, .arr l⟩) })

/-- The full `incrementCounters` method on the live state (store writes
not tracked): pre-steps with their save effects, counters, hour bucket,
the day bucket with its partial effect, then on completion the user and
session upserts and the trailing save's in-place encoding; on a
`TypeError` the partially mutated state remains. -/
def recordEventM (p : EvtParams) (s0 : Stats) : Except String IncResult × Stats :=
  let sd := bumpHour p.hourKey p.iso
    (updPeakToday (incTotals (checkDailyResetM p.todayStr (cleanupSessionsM p.nowMs s0))))
  match bumpDayM p.todayStr p.userId sd with
  | (true, se) =>
    let s2 := saveDoc (touchSession p (upsertUser p se))
    (.ok (mkIncResult p s2), s2)
  | (false, se) =>
    (.error "TypeError: dayStat.uniqueUsers.add is not a function", se)

/-- The full `getCounterStats` method on the live state. -/
def getCounterStatsM (t : Int) (d iso : String) (s0 : Stats) : CounterView × Stats :=
  let s := checkDailyResetM d (cleanupSessionsM t s0)
  (⟨s.total, s.today, s.online, s.uniqueUsers.length, s.peakOnline, s.peakToday,
    iso, s.sessions.length⟩, s)

/-- The full `getDetailedStats` method on the live state. -/
def getDetailedStatsM (hKey hLabel dKey : Int → String) (nowH nowD : Int)
    (t : Int) (d iso : String) (s0 : Stats) : DetailReport × Stats :=
  let s := checkDailyResetM d (cleanupSessionsM t s0)
  (⟨⟨s.total, s.today, s.online, s.uniqueUsers.length, s.peakOnline, s.peakToday,
     s.requestsCount, s.lastReset, s.sessions.length⟩,
    trailingHours hKey hLabel nowH s.hourlyStats,
    trailingDays dKey nowD s.dailyStats,
    ((alookup s.hourlyStats (hKey nowH)).map HourStat.count).getD 0,
    hKey nowH, iso⟩, s)

/-- The full `updateHeartbeat` method on the live state: the sweep with
its save effect, then each non-guard branch's trailing save. -/
def updateHeartbeatM (sid uid : Option String) (t : Int) (s0 : Stats) :
    HBResult × Stats :=
  if falsy sid || falsy uid then (⟨false, s0.online, none⟩, s0)
  else
    let s := cleanupSessionsM t s0
    match alookup s.sessions (jsStr sid) with
    | some sess =>
      let s2 := saveDoc { s with sessions := (aset s.sessions (jsStr sid)
                    { sess with lastHeartbeat := t, lastActivity := t }) }
      (⟨true, s2.online, some "Heartbeat actualizado"⟩, s2)
    | none =>
      let fr := refreshFirstUserSession uid t s.sessions
      if fr.1 then
        let s2 := saveDoc { s with sessions := fr.2 }
        (⟨true, s2.online, some "Sesion del usuario actualizada"⟩, s2)
      else
        let s2 := { s with sessions := (aset s.sessions (jsStr sid)
                      ⟨uid, "User_" ++ jsStr uid, t, t, none, t⟩) }
        let s3 := { s2 with online := s2.sessions.length }
        let s4 := if s3.online > s3.peakOnline then { s3 with peakOnline := s3.online }
                  else s3
        let s5 := saveDoc s4
        (⟨true, s5.online, some "Nueva sesion creada"⟩, s5)

/-- Whether the bucket for date `d`, if present, still holds a live `Set`
(so `uniqueUsers.add` will not throw on it). -/
def dayOK (d : String) (s : Stats) : Bool :=
  match alookup s.dailyStats d with
  | none => true
  | some ds => ds.uniqueUsers.isSet

/-- The number of stored sessions live at time `t` under the 90-second
window of src/worker.js. -/
def liveCount (t : Int) (l : List (String × SessionRec)) : Nat :=
  (l.filter (fun kv => decide (t - kv.2.lastHeartbeat ≤ 90000))).length

/-- After an expiry sweep at time `t`: `online` equals the stored session
count and every stored session is live at `t`. -/
def OLive (t : Int) (s : Stats) : Prop :=
  s.online = s.sessions.length ∧ ∀ kv ∈ s.sessions, t - kv.2.lastHeartbeat ≤ 90000

/-- One inbound operation on the aggregator together with its
environment-provided clock values. -/
inductive Op where
  | record (p : EvtParams)
  | counter (t : Int) (d iso : String)
  | detailed (hKey hLabel dKey : Int → String) (nowH nowD t : Int) (d iso : String)
  | heartbeat (sid uid : Option String) (t : Int)

/-- The live-state transition of one full operation, save effects
included; a thrown `TypeError` is caught at the dispatch boundary and the
partially mutated state remains. -/
def applyOpM : Op → Stats → Stats
  | .record p, s => (recordEventM p s).2
  | .counter t d iso, s => (getCounterStatsM t d iso s).2
  | .detailed hk hl dk nh nd t d iso, s => (getDetailedStatsM hk hl dk nh nd t d iso s).2
  | .heartbeat sid uid t, s => (updateHeartbeatM sid uid t s).2

/-- Run a sequence of operations left to right on the live state. -/
def runOpsM (s : Stats) : List Op → Stats
  | [] => s
  | op :: rest => runOpsM (applyOpM op s) rest

/-- The number of `RecordEvent` operations in a sequence. -/
def countRec : List Op → Nat
  | [] => 0
  | .record _ :: rest => countRec rest + 1
  | .counter _ _ _ :: rest => countRec rest
  | .detailed _ _ _ _ _ _ _ _ :: rest => countRec rest
  | .heartbeat _ _ _ :: rest => countRec rest

/-- Concrete event: user `u1`, session `s1`, at time 0 on date `d0`. -/
def p0 : EvtParams := ⟨some "u1", some "Alice", some "s1", none, 0, "d0", "h0", "t0"⟩

/-- The same event replayed at time 1000, still on date `d0`. -/
def p1 : EvtParams := ⟨some "u1", some "Alice", some "s1", none, 1000, "d0", "h0", "t1"⟩

/-- Concrete event with `userId` absent. -/
def pU : EvtParams := ⟨none, some "Alice", some "s1", none, 0, "d0", "h0", "t0"⟩

/-- The missing-`userId` event replayed at time 1000, still on date `d0`. -/
def pU2 : EvtParams := ⟨none, some "Alice", some "s1", none, 1000, "d0", "h0", "t1"⟩

/-- The result of recording `p0` from the zero state. -/
def r1 : IncResult := ⟨true, ⟨1, 1, 1, 1, 1⟩, "t0"⟩

/-- The state `incrementCounters` hands to its trailing `saveStats` after
recording `p0` from the zero state: the day bucket still holds a live
`Set` - the save then encodes it in place. -/
def S1 : Stats :=
  ⟨1, 1, 1,
   [("user_u1", ⟨some "u1", "Alice", "t0", "t0", 1, [some "s1"]⟩)],
   [("s1", ⟨some "u1", "Alice", 0, 0, none, 0⟩)],
   [("h0", ⟨"h0", 1, "t0"⟩)],
   [("d0", ⟨"d0", 1, .set [some "u1"]⟩)],
   1, 1, "d0", 1⟩

/-- The live state after one full missing-`userId` RecordEvent from the
zero state: the trailing save already encoded the day bucket's set as an
array in place. -/
def SU1 : Stats :=
  ⟨1, 1, 1,
   [("user_undefined", ⟨none, "Alice", "t0", "t0", 1, [some "s1"]⟩)],
   [("s1", ⟨none, "Alice", 0, 0, none, 0⟩)],
   [("h0", ⟨"h0", 1, "t0"⟩)],
   [("d0", ⟨"d0", 1, .arr [none]⟩)],
   1, 1, "d0", 1⟩

/-! ## Basic lemmas about the `Map`/`Set` model -/

theorem alookup_map_if (l : List (String × α)) (k : String) (v : α) :
    alookup (l.map (fun kv => if kv.1 = k then (k, v) else kv)) k =
      (alookup l k).map (fun _ => v) := by
  induction l with
  | nil => rfl
  | cons kv rest ih =>
    by_cases hk : kv.1 = k
    · simp [alookup, hk]
    · simp [alookup, hk, ih]

theorem alookup_append_single (l : List (String × α)) (k : String) (v : α)
    (h : alookup l k = none) : alookup (l ++ [(k, v)]) k = some v := by
  induction l with
  | nil => simp [alookup]
  | cons kv rest ih =>
    rw [alookup] at h
    by_cases hk : kv.1 = k
    · simp [hk] at h
    · simp only [if_neg hk] at h
      simpa [alookup, hk] using ih h

theorem alookup_aset_self (l : List (String × α)) (k : String) (v : α) :
    alookup (aset l k v) k = some v := by
  unfold aset
  cases hl : alookup l k with
  | some w => rw [alookup_map_if, hl]; rfl
  | none => exact alookup_append_single l k v hl

theorem alookup_some_mem {l : List (String × α)} {k : String} {v : α}
    (h : alookup l k = some v) : (k, v) ∈ l := by
  induction l with
  | nil => simp [alookup] at h
  | cons kv rest ih =>
    rw [alookup] at h
    by_cases hk : kv.1 = k
    · have h2 : some kv.2 = some v := by simpa [hk] using h
      have h3 : kv = (k, v) := by
        obtain ⟨a, b⟩ := kv
        simp only [Option.some.injEq] at h2
        simp only at hk
        simp [hk, h2]
      rw [show ((k, v) : String × α) = kv from h3.symm]
      exact List.mem_cons_self kv rest
    · simp only [if_neg hk] at h
      exact List.mem_cons_of_mem _ (ih h)

theorem mem_aset {l : List (String × α)} {k : String} {v : α} {kv : String × α}
    (h : kv ∈ aset l k v) : kv = (k, v) ∨ kv ∈ l := by
  unfold aset at h
  cases hl : alookup l k with
  | some w =>
    rw [hl] at h
    obtain ⟨a, ha, hb⟩ := List.mem_map.mp h
    by_cases hk : a.1 = k
    · simp [hk] at hb
      exact Or.inl hb.symm
    · simp [hk] at hb
      exact Or.inr (hb ▸ ha)
  | none =>
    rw [hl] at h
    rcases List.mem_append.mp h with h1 | h1
    · exact Or.inr h1
    · simp at h1
      exact Or.inl h1

theorem aset_length_of_some {l : List (String × α)} {k : String} {w : α}
    (h : alookup l k = some w) (v : α) : (aset l k v).length = l.length := by
  unfold aset
  rw [h]
  exact List.length_map l _

theorem alookup_eq_none_iff {l : List (String × α)} {k : String} :
    alookup l k = none ↔ ∀ kv ∈ l, kv.1 ≠ k := by
  induction l with
  | nil => simp [alookup]
  | cons kv rest ih =>
    rw [alookup]
    by_cases hk : kv.1 = k
    · simp [hk]
    · simp [hk, ih]

/-! ## Liveness -/


theorem liveCount_eq_length {t : Int} {l : List (String × SessionRec)}
    (h : ∀ kv ∈ l, t - kv.2.lastHeartbeat ≤ 90000) : liveCount t l = l.length := by
  unfold liveCount
  rw [List.filter_eq_self.mpr]
  intro kv hm
  exact decide_eq_true (h kv hm)

theorem cleanup_allLive (t : Int) (s : Stats) :
    ∀ kv ∈ (cleanupSessions t s).sessions, t - kv.2.lastHeartbeat ≤ 90000 := by
  intro kv hm
  unfold cleanupSessions at hm
  simp only [List.mem_filter] at hm
  have h2 := hm.2
  simp only [Bool.not_eq_true', decide_eq_false_iff_not] at h2
  omega

theorem mem_cleanup {t : Int} {s : Stats} {kv : String × SessionRec}
    (h : kv ∈ s.sessions) (hl : t - kv.2.lastHeartbeat ≤ 90000) :
    kv ∈ (cleanupSessions t s).sessions := by
  unfold cleanupSessions
  simp only [List.mem_filter]
  refine ⟨h, ?_⟩
  simp only [Bool.not_eq_true', decide_eq_false_iff_not]
  omega

theorem alookup_cleanup_none {t : Int} {s : Stats} {k : String}
    (h : alookup s.sessions k = none) :
    alookup (cleanupSessions t s).sessions k = none := by
  rw [alookup_eq_none_iff] at h ⊢
  intro kv hm
  unfold cleanupSessions at hm
  exact h kv (List.mem_filter.mp hm).1

/-! ## Lemmas about the heartbeat per-user refresh loop -/

theorem refreshFirst_found {uid : Option String} {t : Int}
    {l : List (String × SessionRec)}
    (h : ∃ kv ∈ l, kv.2.userId = uid) : (refreshFirstUserSession uid t l).1 = true := by
  induction l with
  | nil => simp at h
  | cons kv rest ih =>
    rw [refreshFirstUserSession]
    by_cases hk : kv.2.userId = uid
    · simp [hk]
    · simp only [if_neg hk]
      apply ih
      rcases h with ⟨kv2, hm, hu⟩
      rcases List.mem_cons.mp hm with h1 | h1
      · exact absurd (h1 ▸ hu) hk
      · exact ⟨kv2, h1, hu⟩

theorem refreshFirst_keys (uid : Option String) (t : Int)
    (l : List (String × SessionRec)) :
    ((refreshFirstUserSession uid t l).2).map Prod.fst = l.map Prod.fst := by
  induction l with
  | nil => rfl
  | cons kv rest ih =>
    rw [refreshFirstUserSession]
    by_cases hk : kv.2.userId = uid
    · simp [hk]
    · simp [hk, ih]

theorem refreshFirst_length (uid : Option String) (t : Int)
    (l : List (String × SessionRec)) :
    ((refreshFirstUserSession uid t l).2).length = l.length := by
  have h := refreshFirst_keys uid t l
  have h1 := congrArg List.length h
  simpa using h1

theorem refreshFirst_allLive {uid : Option String} {t : Int}
    {l : List (String × SessionRec)}
    (h : ∀ kv ∈ l, t - kv.2.lastHeartbeat ≤ 90000) :
    ∀ kv ∈ (refreshFirstUserSession uid t l).2, t - kv.2.lastHeartbeat ≤ 90000 := by
  induction l with
  | nil => simp [refreshFirstUserSession]
  | cons kv rest ih =>
    rw [refreshFirstUserSession]
    by_cases hk : kv.2.userId = uid
    · simp only [if_pos hk]
      intro kv2 hm
      rcases List.mem_cons.mp hm with h1 | h1
      · subst h1; simp
      · exact h kv2 (List.mem_cons_of_mem _ h1)
    · simp only [if_neg hk]
      intro kv2 hm
      rcases List.mem_cons.mp hm with h1 | h1
      · exact h kv2 (h1 ▸ List.mem_cons_self kv rest)
      · exact ih (fun kv3 hm3 => h kv3 (List.mem_cons_of_mem _ hm3)) kv2 h1

theorem refreshFirst_refreshed {uid : Option String} {t : Int}
    {l : List (String × SessionRec)}
    (h : (refreshFirstUserSession uid t l).1 = true) :
    ∃ kv ∈ (refreshFirstUserSession uid t l).2,
      kv.2.userId = uid ∧ kv.2.lastHeartbeat = t := by
  induction l with
  | nil => simp [refreshFirstUserSession] at h
  | cons kv rest ih =>
    rw [refreshFirstUserSession] at h ⊢
    by_cases hk : kv.2.userId = uid
    · simp only [if_pos hk]
      exact ⟨_, List.mem_cons_self _ _, by simpa using hk, rfl⟩
    · simp only [if_neg hk] at h ⊢
      obtain ⟨kv2, hm, hu, hb⟩ := ih h
      exact ⟨kv2, List.mem_cons_of_mem _ hm, hu, hb⟩

/-! ## Field preservation through the operation stages -/

theorem checkDailyReset_id {d : String} {s : Stats} (h : s.lastReset = d) :
    checkDailyReset d s = s := by
  simp [checkDailyReset, h]

theorem checkDailyReset_fields (d : String) (s : Stats) :
    (checkDailyReset d s).total = s.total ∧
    (checkDailyReset d s).online = s.online ∧
    (checkDailyReset d s).sessions = s.sessions ∧
    (checkDailyReset d s).uniqueUsers = s.uniqueUsers ∧
    (checkDailyReset d s).hourlyStats = s.hourlyStats ∧
    (checkDailyReset d s).dailyStats = s.dailyStats ∧
    (checkDailyReset d s).requestsCount = s.requestsCount := by
  unfold checkDailyReset
  split <;> simp

theorem cleanupSessions_fields (t : Int) (s : Stats) :
    (cleanupSessions t s).total = s.total ∧
    (cleanupSessions t s).today = s.today ∧
    (cleanupSessions t s).uniqueUsers = s.uniqueUsers ∧
    (cleanupSessions t s).hourlyStats = s.hourlyStats ∧
    (cleanupSessions t s).dailyStats = s.dailyStats ∧
    (cleanupSessions t s).lastReset = s.lastReset ∧
    (cleanupSessions t s).requestsCount = s.requestsCount := by
  unfold cleanupSessions
  simp

theorem cleanupSessions_online (t : Int) (s : Stats) :
    (cleanupSessions t s).online = (cleanupSessions t s).sessions.length := rfl

theorem bumpHour_fields (k i : String) (s : Stats) :
    (bumpHour k i s).total = s.total ∧
    (bumpHour k i s).today = s.today ∧
    (bumpHour k i s).online = s.online ∧
    (bumpHour k i s).sessions = s.sessions ∧
    (bumpHour k i s).uniqueUsers = s.uniqueUsers ∧
    (bumpHour k i s).dailyStats = s.dailyStats ∧
    (bumpHour k i s).lastReset = s.lastReset ∧
    (bumpHour k i s).requestsCount = s.requestsCount := by
  unfold bumpHour
  split <;> simp

theorem bumpDay_fields {d : String} {uid : Option String} {s s2 : Stats}
    (h : bumpDay d uid s = .ok s2) :
    s2.total = s.total ∧
    s2.today = s.today ∧
    s2.online = s.online ∧
    s2.sessions = s.sessions ∧
    s2.uniqueUsers = s.uniqueUsers ∧
    s2.hourlyStats = s.hourlyStats ∧
    s2.lastReset = s.lastReset ∧
    s2.requestsCount = s.requestsCount := by
  unfold bumpDay at h
  split at h
  · cases h; simp
  · split at h
    · cases h; simp
    · cases h

theorem upsertUser_fields (p : EvtParams) (s : Stats) :
    (upsertUser p s).total = s.total ∧
    (upsertUser p s).today = s.today ∧
    (upsertUser p s).online = s.online ∧
    (upsertUser p s).sessions = s.sessions ∧
    (upsertUser p s).hourlyStats = s.hourlyStats ∧
    (upsertUser p s).dailyStats = s.dailyStats ∧
    (upsertUser p s).lastReset = s.lastReset ∧
    (upsertUser p s).requestsCount = s.requestsCount := by
  unfold upsertUser
  dsimp only
  split <;> simp

theorem touchSession_fields (p : EvtParams) (s : Stats) :
    (touchSession p s).total = s.total ∧
    (touchSession p s).today = s.today ∧
    (touchSession p s).uniqueUsers = s.uniqueUsers ∧
    (touchSession p s).hourlyStats = s.hourlyStats ∧
    (touchSession p s).dailyStats = s.dailyStats ∧
    (touchSession p s).lastReset = s.lastReset ∧
    (touchSession p s).requestsCount = s.requestsCount := by
  unfold touchSession
  split
  · simp
  · dsimp only
    split <;> simp

theorem incTotals_fields (s : Stats) :
    (incTotals s).total = s.total + 1 ∧
    (incTotals s).today = s.today + 1 ∧
    (incTotals s).requestsCount = s.requestsCount + 1 ∧
    (incTotals s).online = s.online ∧
    (incTotals s).sessions = s.sessions ∧
    (incTotals s).uniqueUsers = s.uniqueUsers ∧
    (incTotals s).dailyStats = s.dailyStats ∧
    (incTotals s).lastReset = s.lastReset := by
  unfold incTotals
  simp

theorem updPeakToday_fields (s : Stats) :
    (updPeakToday s).total = s.total ∧
    (updPeakToday s).today = s.today ∧
    (updPeakToday s).requestsCount = s.requestsCount ∧
    (updPeakToday s).online = s.online ∧
    (updPeakToday s).sessions = s.sessions ∧
    (updPeakToday s).uniqueUsers = s.uniqueUsers ∧
    (updPeakToday s).dailyStats = s.dailyStats ∧
    (updPeakToday s).lastReset = s.lastReset := by
  unfold updPeakToday
  split <;> simp

/-- The shape of a successful `incrementCounters` run. -/
theorem incrementCounters_shape {p : EvtParams} {s0 : Stats} {r : IncResult}
    {s2 : Stats} (h : incrementCounters p s0 = .ok (r, s2)) :
    ∃ se, bumpDay p.todayStr p.userId
            (bumpHour p.hourKey p.iso
              (updPeakToday (incTotals
                (checkDailyReset p.todayStr (cleanupSessions p.nowMs s0))))) = .ok se ∧
      s2 = touchSession p (upsertUser p se) ∧ r = mkIncResult p s2 := by
  unfold incrementCounters at h
  dsimp only at h
  split at h
  · exact Except.noConfusion h
  · rename_i se heq
    simp only [Except.ok.injEq, Prod.mk.injEq] at h
    exact ⟨se, heq, h.2.symm, by rw [← h.2]; exact h.1.symm⟩

/-! ## Online/liveness invariant -/


theorem OLive_liveCount {t : Int} {s : Stats} (h : OLive t s) :
    s.online = liveCount t s.sessions := by
  rw [h.1, liveCount_eq_length h.2]

theorem OLive_cleanup (t : Int) (s : Stats) : OLive t (cleanupSessions t s) :=
  ⟨rfl, cleanup_allLive t s⟩

theorem OLive_checkDailyReset {t : Int} {s : Stats} (h : OLive t s) (d : String) :
    OLive t (checkDailyReset d s) := by
  obtain ⟨h1, h2, h3, -⟩ := checkDailyReset_fields d s
  exact ⟨by rw [h2, h3, h.1], by rw [h3]; exact h.2⟩

theorem OLive_incTotals {t : Int} {s : Stats} (h : OLive t s) :
    OLive t (incTotals s) := by
  obtain ⟨-, -, -, h4, h5, -⟩ := incTotals_fields s
  exact ⟨by rw [h4, h5, h.1], by rw [h5]; exact h.2⟩

theorem OLive_updPeakToday {t : Int} {s : Stats} (h : OLive t s) :
    OLive t (updPeakToday s) := by
  obtain ⟨-, -, -, h4, h5, -⟩ := updPeakToday_fields s
  exact ⟨by rw [h4, h5, h.1], by rw [h5]; exact h.2⟩

theorem OLive_bumpHour {t : Int} {s : Stats} (h : OLive t s) (k i : String) :
    OLive t (bumpHour k i s) := by
  obtain ⟨-, -, h3, h4, -⟩ := bumpHour_fields k i s
  exact ⟨by rw [h3, h4, h.1], by rw [h4]; exact h.2⟩

theorem OLive_bumpDay {t : Int} {s s2 : Stats} {d : String} {uid : Option String}
    (hb : bumpDay d uid s = .ok s2) (h : OLive t s) : OLive t s2 := by
  obtain ⟨-, -, h3, h4, -⟩ := bumpDay_fields hb
  exact ⟨by rw [h3, h4, h.1], by rw [h4]; exact h.2⟩

theorem OLive_upsertUser {t : Int} {s : Stats} (h : OLive t s) (p : EvtParams) :
    OLive t (upsertUser p s) := by
  obtain ⟨-, -, h3, h4, -⟩ := upsertUser_fields p s
  exact ⟨by rw [h3, h4, h.1], by rw [h4]; exact h.2⟩

theorem OLive_touchSession {s : Stats} (p : EvtParams)
    (h : OLive p.nowMs s) : OLive p.nowMs (touchSession p s) := by
  unfold touchSession
  split
  · exact h
  · dsimp only
    constructor
    · split <;> simp
    · intro kv hm
      have hm2 : kv ∈ aset s.sessions (jsStr p.sessionId)
          ⟨p.userId, defaultName p.playerName p.userId, p.nowMs, p.nowMs,
           p.gameId, p.nowMs⟩ := by
        revert hm
        split <;> (intro hm; simpa using hm)
      rcases mem_aset hm2 with h1 | h1
      · subst h1; simp
      · exact h.2 kv h1

/-! ## User upsert lookup -/

/-- The upserted unique-user record is retrievable under its key. -/
theorem upsertUser_lookup (p : EvtParams) (s : Stats) :
    alookup (upsertUser p s).uniqueUsers ("user_" ++ jsStr p.userId) =
      some (match alookup s.uniqueUsers ("user_" ++ jsStr p.userId) with
        | none =>
          ⟨p.userId, defaultName p.playerName p.userId, p.iso, p.iso, 1, [p.sessionId]⟩
        | some u =>
          ⟨u.userId, u.playerName, u.firstSeen, p.iso, u.totalExecutions + 1,
           if p.sessionId ∈ u.sessions then u.sessions else u.sessions ++ [p.sessionId]⟩) := by
  unfold upsertUser
  dsimp only
  cases hl : alookup s.uniqueUsers ("user_" ++ jsStr p.userId) with
  | none => simp [alookup_aset_self]
  | some u => simp [alookup_aset_self]

/-! ## Operation sequences from the zero state -/


theorem countRec_append (l1 l2 : List Op) :
    countRec (l1 ++ l2) = countRec l1 + countRec l2 := by
  induction l1 with
  | nil => simp [countRec]
  | cons op rest ih =>
    cases op <;> simp [countRec, ih] <;> omega

theorem getCounterStats_state (t : Int) (d iso : String) (s : Stats) :
    (getCounterStats t d iso s).2 = checkDailyReset d (cleanupSessions t s) := rfl

theorem getDetailedStats_state (hk hl dk : Int → String) (nh nd t : Int)
    (d iso : String) (s : Stats) :
    (getDetailedStats hk hl dk nh nd t d iso s).2 =
      checkDailyReset d (cleanupSessions t s) := rfl

/-- A successful `incrementCounters` reports the final `online` field, and
the final state satisfies the liveness invariant at the call time. -/
theorem incrementCounters_online {p : EvtParams} {s0 : Stats} {r : IncResult}
    {s2 : Stats} (h : incrementCounters p s0 = .ok (r, s2)) :
    r.stats.online = s2.online ∧ OLive p.nowMs s2 := by
  obtain ⟨se, hbd, hs2, hr⟩ := incrementCounters_shape h
  constructor
  · rw [hr]
    rfl
  · rw [hs2]
    exact OLive_touchSession p (OLive_upsertUser (OLive_bumpDay hbd
      (OLive_bumpHour (OLive_updPeakToday (OLive_incTotals
        (OLive_checkDailyReset (OLive_cleanup p.nowMs s0) p.todayStr))) _ _)) p)

/-- With both identifiers present, `updateHeartbeat` reports the final
`online` field and leaves the state satisfying the liveness invariant. -/
theorem updateHeartbeat_online {sid uid : Option String} {t : Int} (s : Stats)
    (hsid : falsy sid = false) (huid : falsy uid = false) :
    (updateHeartbeat sid uid t s).1.online = (updateHeartbeat sid uid t s).2.online ∧
    OLive t (updateHeartbeat sid uid t s).2 := by
  have hcond : ¬((falsy sid || falsy uid) = true) := by simp [hsid, huid]
  unfold updateHeartbeat
  rw [if_neg hcond]
  dsimp only
  cases hl : alookup (cleanupSessions t s).sessions (jsStr sid) with
  | some sess =>
    dsimp only
    refine ⟨rfl, ?_⟩
    unfold OLive
    refine ⟨?_, ?_⟩
    · show (cleanupSessions t s).online = _
      rw [cleanupSessions_online, aset_length_of_some hl]
    · intro kv hm
      simp only at hm
      rcases mem_aset hm with h1 | h1
      · subst h1; simp
      · exact cleanup_allLive t s kv h1
  | none =>
    dsimp only
    cases hf : (refreshFirstUserSession uid t (cleanupSessions t s).sessions).1 with
    | true =>
      rw [if_pos rfl]
      refine ⟨rfl, ?_⟩
      unfold OLive
      refine ⟨?_, ?_⟩
      · show (cleanupSessions t s).online = _
        rw [cleanupSessions_online, refreshFirst_length]
      · intro kv hm
        exact refreshFirst_allLive (cleanup_allLive t s) kv hm
    | false =>
      rw [if_neg (by simp)]
      dsimp only
      have hall : ∀ kv ∈ aset (cleanupSessions t s).sessions (jsStr sid)
          ⟨uid, "User_" ++ jsStr uid, t, t, none, t⟩,
          t - kv.2.lastHeartbeat ≤ 90000 := by
        intro kv hm
        rcases mem_aset hm with h1 | h1
        · subst h1; simp
        · exact cleanup_allLive t s kv h1
      unfold OLive
      split
      · exact ⟨rfl, rfl, hall⟩
      · exact ⟨rfl, rfl, hall⟩

/-! ## Closed form of the trailing-hours loop -/

theorem foldl_append_map (l : List α) (f : α → β) :
    ∀ a : List β, l.foldl (fun acc x => acc ++ [f x]) a = a ++ l.map f := by
  induction l with
  | nil => intro a; simp
  | cons x rest ih =>
    intro a
    rw [List.foldl_cons, ih, List.map_cons]
    simp

theorem trailingHours_closed (hKey hLabel : Int → String) (nowH : Int)
    (hs : List (String × HourStat)) :
    trailingHours hKey hLabel nowH hs =
      (List.range 12).map (fun j =>
        ⟨hLabel (nowH - 11 + (j : Int)),
         ((alookup hs (hKey (nowH - 11 + (j : Int)))).map HourStat.count).getD 0,
         hKey (nowH - 11 + (j : Int))⟩) := by
  unfold trailingHours
  refine (foldl_append_map _ _ _).trans ?_
  simp only [List.nil_append]
  simp only [show ∀ j : Nat, nowH - (11 - (j : Int)) = nowH - 11 + (j : Int) from
    fun j => by ring]

/-- A successful `incrementCounters` always reports `success:true`. -/
theorem incrementCounters_success {p : EvtParams} {s0 : Stats} {r : IncResult}
    {s2 : Stats} (h : incrementCounters p s0 = .ok (r, s2)) : r.success = true := by
  obtain ⟨se, -, -, hr⟩ := incrementCounters_shape h
  rw [hr]
  rfl

/-- With both identifiers present, `updateHeartbeat` always reports
`success:true` (every non-guard branch does). -/
theorem updateHeartbeat_success {sid uid : Option String} {t : Int} (s : Stats)
    (hsid : falsy sid = false) (huid : falsy uid = false) :
    (updateHeartbeat sid uid t s).1.success = true := by
  unfold updateHeartbeat
  rw [if_neg (by simp [hsid, huid])]
  dsimp only
  cases hl : alookup (cleanupSessions t s).sessions (jsStr sid) with
  | some sess => rfl
  | none =>
    dsimp only
    cases hf : (refreshFirstUserSession uid t (cleanupSessions t s).sessions).1 with
    | true => rw [if_pos rfl]
    | false => rw [if_neg (by simp)]


/-! ## Counters through the full-method models -/

theorem saveDoc_fields (s : Stats) :
    (saveDoc s).total = s.total ∧
    (saveDoc s).today = s.today ∧
    (saveDoc s).online = s.online ∧
    (saveDoc s).uniqueUsers = s.uniqueUsers ∧
    (saveDoc s).sessions = s.sessions ∧
    (saveDoc s).hourlyStats = s.hourlyStats ∧
    (saveDoc s).lastReset = s.lastReset ∧
    (saveDoc s).requestsCount = s.requestsCount := by
  unfold saveDoc
  simp

theorem cleanupSessionsM_fields (t : Int) (s : Stats) :
    (cleanupSessionsM t s).total = s.total ∧
    (cleanupSessionsM t s).today = s.today ∧
    (cleanupSessionsM t s).uniqueUsers = s.uniqueUsers ∧
    (cleanupSessionsM t s).lastReset = s.lastReset ∧
    (cleanupSessionsM t s).requestsCount = s.requestsCount := by
  unfold cleanupSessionsM
  dsimp only
  split <;> simp [saveDoc]

theorem checkDailyResetM_fields (d : String) (s : Stats) :
    (checkDailyResetM d s).total = s.total ∧
    (checkDailyResetM d s).uniqueUsers = s.uniqueUsers ∧
    (checkDailyResetM d s).requestsCount = s.requestsCount := by
  unfold checkDailyResetM
  split <;> simp [saveDoc]

theorem bumpDayM_fields (d : String) (uid : Option String) (s : Stats) :
    (bumpDayM d uid s).2.total = s.total ∧
    (bumpDayM d uid s).2.today = s.today ∧
    (bumpDayM d uid s).2.uniqueUsers = s.uniqueUsers ∧
    (bumpDayM d uid s).2.requestsCount = s.requestsCount := by
  unfold bumpDayM
  split
  · simp
  · split <;> simp

/-- The pre-steps plus the three counter increments and the hour bucket:
`total` and `requestsCount` each grow by exactly one. -/
theorem recordPre_counters (p : EvtParams) (s : Stats) :
    (bumpHour p.hourKey p.iso (updPeakToday (incTotals
      (checkDailyResetM p.todayStr (cleanupSessionsM p.nowMs s))))).total
      = s.total + 1 ∧
    (bumpHour p.hourKey p.iso (updPeakToday (incTotals
      (checkDailyResetM p.todayStr (cleanupSessionsM p.nowMs s))))).requestsCount
      = s.requestsCount + 1 := by
  constructor
  · rw [(bumpHour_fields _ _ _).1, (updPeakToday_fields _).1, (incTotals_fields _).1,
        (checkDailyResetM_fields _ _).1, (cleanupSessionsM_fields _ _).1]
  · rw [(bumpHour_fields _ _ _).2.2.2.2.2.2.2, (updPeakToday_fields _).2.2.1,
        (incTotals_fields _).2.2.1, (checkDailyResetM_fields _ _).2.2,
        (cleanupSessionsM_fields _ _).2.2.2.2]

/-- Every full `RecordEvent` run - the throwing ones included, since the
`TypeError` fires only after the increments - bumps `total` and
`requestsCount` by exactly one. -/
theorem recordEventM_counters (p : EvtParams) (s : Stats) :
    (recordEventM p s).2.total = s.total + 1 ∧
    (recordEventM p s).2.requestsCount = s.requestsCount + 1 := by
  obtain ⟨hT, hR⟩ := recordPre_counters p s
  unfold recordEventM
  dsimp only
  have hbf := bumpDayM_fields p.todayStr p.userId
    (bumpHour p.hourKey p.iso (updPeakToday (incTotals
      (checkDailyResetM p.todayStr (cleanupSessionsM p.nowMs s)))))
  cases hb : bumpDayM p.todayStr p.userId
      (bumpHour p.hourKey p.iso (updPeakToday (incTotals
        (checkDailyResetM p.todayStr (cleanupSessionsM p.nowMs s))))) with
  | mk ok se =>
    rw [hb] at hbf
    have hse : se.total = s.total + 1 := hbf.1.trans hT
    have hser : se.requestsCount = s.requestsCount + 1 := hbf.2.2.2.trans hR
    cases ok with
    | true =>
      dsimp only
      constructor
      · rw [(saveDoc_fields _).1, (touchSession_fields _ _).1,
            (upsertUser_fields _ _).1, hse]
      · rw [(saveDoc_fields _).2.2.2.2.2.2.2, (touchSession_fields _ _).2.2.2.2.2.2,
            (upsertUser_fields _ _).2.2.2.2.2.2.2, hser]
    | false =>
      dsimp only
      exact ⟨hse, hser⟩

/-- The full heartbeat method leaves `total` and `requestsCount`
untouched in every branch. -/
theorem updateHeartbeatM_counters (sid uid : Option String) (t : Int) (s : Stats) :
    (updateHeartbeatM sid uid t s).2.total = s.total ∧
    (updateHeartbeatM sid uid t s).2.requestsCount = s.requestsCount := by
  have hc1 : (cleanupSessionsM t s).total = s.total := (cleanupSessionsM_fields t s).1
  have hc2 : (cleanupSessionsM t s).requestsCount = s.requestsCount :=
    (cleanupSessionsM_fields t s).2.2.2.2
  unfold updateHeartbeatM
  split
  · exact ⟨rfl, rfl⟩
  · dsimp only
    cases hl : alookup (cleanupSessionsM t s).sessions (jsStr sid) with
    | some sess =>
      dsimp only
      exact ⟨((saveDoc_fields _).1).trans hc1,
             ((saveDoc_fields _).2.2.2.2.2.2.2).trans hc2⟩
    | none =>
      dsimp only
      cases hf : (refreshFirstUserSession uid t (cleanupSessionsM t s).sessions).1 with
      | true =>
        rw [if_pos rfl]
        exact ⟨((saveDoc_fields _).1).trans hc1,
               ((saveDoc_fields _).2.2.2.2.2.2.2).trans hc2⟩
      | false =>
        rw [if_neg (by simp)]
        dsimp only
        split
        · exact ⟨((saveDoc_fields _).1).trans hc1,
                 ((saveDoc_fields _).2.2.2.2.2.2.2).trans hc2⟩
        · exact ⟨((saveDoc_fields _).1).trans hc1,
                 ((saveDoc_fields _).2.2.2.2.2.2.2).trans hc2⟩

theorem applyOpM_counters (op : Op) (s : Stats) :
    (applyOpM op s).total = s.total + countRec [op] ∧
    (applyOpM op s).requestsCount = s.requestsCount + countRec [op] := by
  cases op with
  | record p =>
    obtain ⟨h1, h2⟩ := recordEventM_counters p s
    exact ⟨h1, h2⟩
  | counter t d iso =>
    exact ⟨((checkDailyResetM_fields _ _).1).trans ((cleanupSessionsM_fields _ _).1),
           ((checkDailyResetM_fields _ _).2.2).trans
             ((cleanupSessionsM_fields _ _).2.2.2.2)⟩
  | detailed hk hl dk nh nd t d iso =>
    exact ⟨((checkDailyResetM_fields _ _).1).trans ((cleanupSessionsM_fields _ _).1),
           ((checkDailyResetM_fields _ _).2.2).trans
             ((cleanupSessionsM_fields _ _).2.2.2.2)⟩
  | heartbeat sid uid t =>
    obtain ⟨h1, h2⟩ := updateHeartbeatM_counters sid uid t s
    exact ⟨h1, h2⟩

theorem runOpsM_counters (ops : List Op) (s : Stats) :
    (runOpsM s ops).total = s.total + countRec ops ∧
    (runOpsM s ops).requestsCount = s.requestsCount + countRec ops := by
  induction ops generalizing s with
  | nil => exact ⟨rfl, rfl⟩
  | cons op rest ih =>
    obtain ⟨h1, h2⟩ := applyOpM_counters op s
    obtain ⟨h3, h4⟩ := ih (applyOpM op s)
    constructor
    · rw [show runOpsM s (op :: rest) = runOpsM (applyOpM op s) rest from rfl, h3, h1]
      cases op <;> simp [countRec] <;> omega
    · rw [show runOpsM s (op :: rest) = runOpsM (applyOpM op s) rest from rfl, h4, h2]
      cases op <;> simp [countRec] <;> omega

/-- The conclusions of a completed daily block shared by both of its
success cases: the finishing user/session upserts and the trailing save
leave `today` alone and make the `user_undefined` record retrievable with
the expected count. -/
theorem recordTail_spec (p : EvtParams) (sd : Stats)
    (dst : List (String × DayStat)) (hu : p.userId = none) :
    (saveDoc (touchSession p (upsertUser p { sd with dailyStats := dst }))).today
      = sd.today ∧
    (∃ u, alookup (saveDoc (touchSession p
        (upsertUser p { sd with dailyStats := dst }))).uniqueUsers "user_undefined"
          = some u ∧
      u.totalExecutions = (match alookup sd.uniqueUsers "user_undefined" with
        | some u0 => u0.totalExecutions + 1
        | none => 1)) := by
  constructor
  · rw [(saveDoc_fields _).2.1, (touchSession_fields _ _).2.1,
        (upsertUser_fields _ _).2.1]
  · have hkey : "user_" ++ jsStr p.userId = "user_undefined" := by rw [hu]; rfl
    have hul := upsertUser_lookup p { sd with dailyStats := dst }
    rw [hkey] at hul
    have huu : (saveDoc (touchSession p
        (upsertUser p { sd with dailyStats := dst }))).uniqueUsers
        = (upsertUser p { sd with dailyStats := dst }).uniqueUsers := by
      rw [(saveDoc_fields _).2.2.2.1, (touchSession_fields _ _).2.2.1]
    rw [huu, hul]
    rw [show ({ sd with dailyStats := dst } : Stats).uniqueUsers = sd.uniqueUsers
      from rfl]
    cases hl : alookup sd.uniqueUsers "user_undefined" with
    | none => exact ⟨_, rfl, rfl⟩
    | some u0 => exact ⟨_, rfl, rfl⟩

/-! ## Claim theorems -/

/-- C1: the snapshot round trip is broken in the code.  From the zero
state, one `RecordEvent` reaches `S1`, whose day bucket holds a live
unique-participant `Set`.  Saving encodes that set as a sequence, but the
constructor's restore path never decodes it back, so `Load(Save(S1))`
differs from `S1`, and the next same-day `RecordEvent` on the restored
state throws the `TypeError` from `uniqueUsers.add`. -/
theorem record_then_save_load_breaks_dayset :
    incrementCounters p0 (initStats "d0") = .ok (r1, S1) ∧
    loadStats (saveDoc S1) ≠ S1 ∧
    incrementCounters p1 (loadStats (saveDoc S1)) =
      .error "TypeError: dayStat.uniqueUsers.add is not a function" :=
  ⟨rfl, by decide, rfl⟩

/-- C2 counterexample: in `S1` the session `s1` is owned by `u1`, yet a
heartbeat from `u2` for `s1` returns `success:true` and refreshes the
session's `lastHeartbeat` from 0 to 10 in src/worker.js. -/
theorem heartbeat_spoof_not_rejected :
    alookup S1.sessions "s1" = some ⟨some "u1", "Alice", 0, 0, none, 0⟩ ∧
    (updateHeartbeat (some "s1") (some "u2") 10 S1).1.success = true ∧
    alookup (updateHeartbeat (some "s1") (some "u2") 10 S1).2.sessions "s1" =
      some ⟨some "u1", "Alice", 10, 0, none, 10⟩ :=
  ⟨rfl, rfl, rfl⟩

/-- C2 amended: the src/worker.js `updateHeartbeat` refreshes an existing
session and returns `success:true` regardless of the caller's `userId`;
only the earlier variant (src/unnamed/part_000) rejects a heartbeat for a
session owned by a different `userId` with `success:false`, leaving its
`lastHeartbeat` unchanged. -/
theorem heartbeat_owner_check_by_variant (s : Stats) (sid uid : Option String)
    (t : Int) (hsid : falsy sid = false) (huid : falsy uid = false) :
    (∀ sess, alookup (cleanupSessions t s).sessions (jsStr sid) = some sess →
      updateHeartbeat sid uid t s =
        (⟨true, (cleanupSessions t s).online, some "Heartbeat actualizado"⟩,
         { cleanupSessions t s with
           sessions := (aset (cleanupSessions t s).sessions (jsStr sid)
             { sess with lastHeartbeat := t, lastActivity := t }) })) ∧
    (∀ sess, alookup (cleanupSessionsV0 t s).sessions (jsStr sid) = some sess →
      sess.userId ≠ uid →
      updateHeartbeatV0 sid uid t s =
        (⟨false, (cleanupSessionsV0 t s).online, none⟩, cleanupSessionsV0 t s)) := by
  constructor
  · intro sess hl
    unfold updateHeartbeat
    rw [if_neg (by simp [hsid, huid])]
    dsimp only
    rw [hl]
  · intro sess hl hne
    unfold updateHeartbeatV0
    dsimp only
    rw [if_neg (by simp [hsid])]
    rw [hl]
    dsimp only
    rw [if_neg hne]

/-- C2 witness: the amended statement evaluated at `S1` with the spoofing
caller `u2`. -/
theorem heartbeat_owner_check_witness :
    updateHeartbeat (some "s1") (some "u2") 10 S1 =
      (⟨true, (cleanupSessions 10 S1).online, some "Heartbeat actualizado"⟩,
       { cleanupSessions 10 S1 with
         sessions := (aset (cleanupSessions 10 S1).sessions "s1"
           ⟨some "u1", "Alice", 10, 0, none, 10⟩) }) ∧
    updateHeartbeatV0 (some "s1") (some "u2") 10 S1 =
      (⟨false, (cleanupSessionsV0 10 S1).online, none⟩, cleanupSessionsV0 10 S1) := by
  have h := heartbeat_owner_check_by_variant S1 (some "s1") (some "u2") 10 rfl rfl
  exact ⟨h.1 ⟨some "u1", "Alice", 0, 0, none, 0⟩ (by decide),
         h.2 ⟨some "u1", "Alice", 0, 0, none, 0⟩ (by decide) (by decide)⟩

/-- C3 counterexample: with the durable write failing, `RecordEvent`
still returns `success:true` (`r1`), and the store is left unchanged
(`none`, nothing was ever persisted) while the live state keeps the
save's in-place encoding (`saveDoc S1`); `saveStats` merely returns
`false`, which the caller discards. -/
theorem record_success_despite_save_failure :
    incrementCountersD false p0 (initStats "d0") none = .ok (r1, saveDoc S1, none) ∧
    r1.success = true ∧
    (saveStats false none S1).1 = false :=
  ⟨rfl, rfl, rfl⟩

/-- C3 amended: in src/worker.js a durable-write failure is caught inside
`saveStats` and surfaced only as its ignored boolean result: both
`RecordEvent` and a valid `Heartbeat` still report success while the
store keeps its old contents. -/
theorem persistence_failure_not_surfaced :
    (∀ p s store r s2 st2, incrementCountersD false p s store = .ok (r, s2, st2) →
       r.success = true ∧ st2 = store) ∧
    (∀ sid uid t s store, falsy sid = false → falsy uid = false →
       (updateHeartbeatD false sid uid t s store).1.success = true ∧
       (updateHeartbeatD false sid uid t s store).2.2 = store) := by
  constructor
  · intro p s store r s2 st2 h
    unfold incrementCountersD at h
    cases hI : incrementCounters p s with
    | error e =>
      rw [hI] at h
      exact Except.noConfusion h
    | ok rs =>
      obtain ⟨r0, s0⟩ := rs
      rw [hI] at h
      simp only [Except.ok.injEq, Prod.mk.injEq] at h
      obtain ⟨h1, h2, h3⟩ := h
      subst h1
      subst h2
      exact ⟨incrementCounters_success hI, by rw [← h3]; rfl⟩
  · intro sid uid t s store hsid huid
    unfold updateHeartbeatD
    rw [if_neg (by simp [hsid, huid])]
    exact ⟨updateHeartbeat_success s hsid huid, rfl⟩

/-- C3 witness: the amended statement evaluated at the concrete failing
write from the zero state. -/
theorem persistence_failure_witness :
    incrementCountersD false p0 (initStats "d0") none = .ok (r1, saveDoc S1, none) ∧
    r1.success = true ∧ (none : Option Stats) = none := by
  refine ⟨rfl, ?_, ?_⟩
  · exact (persistence_failure_not_surfaced.1 p0 (initStats "d0") none r1
      (saveDoc S1) none rfl).1
  · exact (persistence_failure_not_surfaced.1 p0 (initStats "d0") none r1
      (saveDoc S1) none rfl).2

/-- C4: over any operation sequence from the zero state - including
`RecordEvent` calls that throw the day-bucket `TypeError`, which fires
only after the counter increments - `total` and `requestsCount` always
equal the number of `RecordEvent` calls made so far, and therefore never
decrease along prefixes (rollover, expiry, queries and heartbeats leave
both unchanged). -/
theorem total_requests_count_events (d : String) (ops : List Op) :
    (runOpsM (initStats d) ops).total = countRec ops ∧
    (runOpsM (initStats d) ops).requestsCount = countRec ops ∧
    (∀ pre post, ops = pre ++ post →
       (runOpsM (initStats d) pre).total ≤ (runOpsM (initStats d) ops).total ∧
       (runOpsM (initStats d) pre).requestsCount ≤
         (runOpsM (initStats d) ops).requestsCount) := by
  obtain ⟨h1, h2⟩ := runOpsM_counters ops (initStats d)
  refine ⟨by rw [h1]; simp [initStats], by rw [h2]; simp [initStats], ?_⟩
  intro pre post hsplit
  obtain ⟨h3, h4⟩ := runOpsM_counters pre (initStats d)
  constructor
  · rw [h1, h3, hsplit, countRec_append]
    simp [initStats]
  · rw [h2, h4, hsplit, countRec_append]
    simp [initStats]

/-- C4 witness: two same-day `RecordEvent` calls - the second one throws
the day-bucket `TypeError` in the full model - still leave
`total = requestsCount = 2`, with the prefix value below the final
value. -/
theorem total_requests_count_witness :
    (runOpsM (initStats "d0") [Op.record p0, Op.record p1]).total = 2 ∧
    (runOpsM (initStats "d0") [Op.record p0, Op.record p1]).requestsCount = 2 ∧
    (runOpsM (initStats "d0") [Op.record p0]).total ≤
      (runOpsM (initStats "d0") [Op.record p0, Op.record p1]).total := by
  have h := total_requests_count_events "d0" [Op.record p0, Op.record p1]
  exact ⟨h.1, h.2.1, (h.2.2 [Op.record p0] [Op.record p1] rfl).1⟩

/-- C5 counterexample: `S1` is reached by one `RecordEvent` at time 0; a
`Heartbeat` at time 100000 with `userId` missing reports the stale
`online = 1` although no stored session is live within the 90-second
window at that time. -/
theorem stale_online_on_invalid_heartbeat :
    incrementCounters p0 (initStats "d0") = .ok (r1, S1) ∧
    (updateHeartbeat (some "s1") none 100000 S1).1.online = 1 ∧
    liveCount 100000 (updateHeartbeat (some "s1") none 100000 S1).2.sessions = 0 :=
  ⟨rfl, rfl, rfl⟩

/-- C5 amended: the reported `online` equals the number of stored
sessions live at the call time for `RecordEvent`, `GetSummary`,
`GetDetailedReport`, and every `Heartbeat` whose two identifiers are
present; a `Heartbeat` with a missing identifier returns the previously
stored `online` without expiring stale sessions. -/
theorem online_equals_live_sessions (s : Stats) (t : Int) :
    (∀ p r s2, p.nowMs = t → incrementCounters p s = .ok (r, s2) →
       r.stats.online = liveCount t s2.sessions) ∧
    (∀ d iso, (getCounterStats t d iso s).1.online =
       liveCount t (getCounterStats t d iso s).2.sessions) ∧
    (∀ hk hl dk nh nd d iso,
       (getDetailedStats hk hl dk nh nd t d iso s).1.summary.online =
         liveCount t (getDetailedStats hk hl dk nh nd t d iso s).2.sessions) ∧
    (∀ sid uid, falsy sid = false → falsy uid = false →
       (updateHeartbeat sid uid t s).1.online =
         liveCount t (updateHeartbeat sid uid t s).2.sessions) := by
  refine ⟨?_, ?_, ?_, ?_⟩
  · intro p r s2 hp h
    subst hp
    obtain ⟨ho, hOL⟩ := incrementCounters_online h
    rw [ho, OLive_liveCount hOL]
  · intro d iso
    have hOL : OLive t (getCounterStats t d iso s).2 := by
      rw [getCounterStats_state]
      exact OLive_checkDailyReset (OLive_cleanup t s) d
    have he : (getCounterStats t d iso s).1.online = (getCounterStats t d iso s).2.online := rfl
    rw [he, OLive_liveCount hOL]
  · intro hk hl dk nh nd d iso
    have hOL : OLive t (getDetailedStats hk hl dk nh nd t d iso s).2 := by
      rw [getDetailedStats_state]
      exact OLive_checkDailyReset (OLive_cleanup t s) d
    have he : (getDetailedStats hk hl dk nh nd t d iso s).1.summary.online =
        (getDetailedStats hk hl dk nh nd t d iso s).2.online := rfl
    rw [he, OLive_liveCount hOL]
  · intro sid uid hsid huid
    obtain ⟨ho, hOL⟩ := updateHeartbeat_online s hsid huid
    rw [ho, OLive_liveCount hOL]

/-- C5 witness: the amended statement evaluated at a valid heartbeat on
`S1`. -/
theorem online_equals_live_witness :
    (updateHeartbeat (some "s1") (some "u1") 5 S1).1.online =
      liveCount 5 (updateHeartbeat (some "s1") (some "u1") 5 S1).2.sessions :=
  (online_equals_live_sessions S1 5).2.2.2 (some "s1") (some "u1") rfl rfl

/-- C6: a `Heartbeat` with a fresh `sessionId` for a user who already
owns a live session refreshes that session in place: it succeeds, the
reported `online` is the post-sweep session count, the stored key set is
unchanged (no second session is created), and some session owned by the
user now carries `lastHeartbeat = t`. -/
theorem heartbeat_user_dedup (s : Stats) (sid uid : Option String) (t : Int)
    (hsid : falsy sid = false) (huid : falsy uid = false)
    (hnew : alookup s.sessions (jsStr sid) = none)
    (hown : ∃ kv ∈ s.sessions, kv.2.userId = uid ∧ t - kv.2.lastHeartbeat ≤ 90000) :
    (updateHeartbeat sid uid t s).1.success = true ∧
    (updateHeartbeat sid uid t s).1.online = (cleanupSessions t s).sessions.length ∧
    (updateHeartbeat sid uid t s).2.sessions.map Prod.fst =
      (cleanupSessions t s).sessions.map Prod.fst ∧
    (∃ kv ∈ (updateHeartbeat sid uid t s).2.sessions,
       kv.2.userId = uid ∧ kv.2.lastHeartbeat = t) := by
  have hnew2 : alookup (cleanupSessions t s).sessions (jsStr sid) = none :=
    alookup_cleanup_none hnew
  have hfound : (refreshFirstUserSession uid t (cleanupSessions t s).sessions).1 = true := by
    apply refreshFirst_found
    obtain ⟨kv, hm, hu, hlv⟩ := hown
    exact ⟨kv, mem_cleanup hm hlv, hu⟩
  unfold updateHeartbeat
  rw [if_neg (by simp [hsid, huid])]
  dsimp only
  rw [hnew2]
  dsimp only
  rw [if_pos hfound]
  exact ⟨rfl, rfl, refreshFirst_keys uid t (cleanupSessions t s).sessions,
         refreshFirst_refreshed hfound⟩

/-- C6 witness: the dedup statement evaluated on `S1` with the unseen
session id `s2`. -/
theorem heartbeat_user_dedup_witness :
    (updateHeartbeat (some "s2") (some "u1") 10 S1).1.success = true ∧
    (updateHeartbeat (some "s2") (some "u1") 10 S1).1.online =
      (cleanupSessions 10 S1).sessions.length ∧
    (updateHeartbeat (some "s2") (some "u1") 10 S1).2.sessions.map Prod.fst =
      (cleanupSessions 10 S1).sessions.map Prod.fst ∧
    (∃ kv ∈ (updateHeartbeat (some "s2") (some "u1") 10 S1).2.sessions,
       kv.2.userId = some "u1" ∧ kv.2.lastHeartbeat = 10) :=
  heartbeat_user_dedup S1 (some "s2") (some "u1") 10 rfl rfl (by decide)
    ⟨("s1", ⟨some "u1", "Alice", 0, 0, none, 0⟩), by decide, by decide, by decide⟩

/-- C7: when the stored reset date differs from the current one, the
rollover check zeroes `today` and `peakToday`, stamps the new date,
leaves `total` alone, and is idempotent (so the reset happens exactly
once across operations straddling the boundary); a full `GetSummary`
performs it likewise. -/
theorem daily_rollover_once (s : Stats) (d : String) (h : s.lastReset ≠ d) :
    (checkDailyReset d s).today = 0 ∧
    (checkDailyReset d s).peakToday = 0 ∧
    (checkDailyReset d s).lastReset = d ∧
    (checkDailyReset d s).total = s.total ∧
    checkDailyReset d (checkDailyReset d s) = checkDailyReset d s ∧
    (∀ t iso, (getCounterStats t d iso s).2.today = 0 ∧
       (getCounterStats t d iso s).2.total = s.total ∧
       (getCounterStats t d iso s).2.lastReset = d) := by
  have h1 : checkDailyReset d s = { s with today := 0, peakToday := 0, lastReset := d } := by
    simp [checkDailyReset, h]
  refine ⟨by rw [h1], by rw [h1], by rw [h1], by rw [h1], ?_, ?_⟩
  · rw [h1]
    exact checkDailyReset_id rfl
  · intro t iso
    rw [getCounterStats_state]
    have h2 : (cleanupSessions t s).lastReset ≠ d := by
      rw [(cleanupSessions_fields t s).2.2.2.2.2.1]
      exact h
    have h3 : checkDailyReset d (cleanupSessions t s) =
        { cleanupSessions t s with today := 0, peakToday := 0, lastReset := d } := by
      simp [checkDailyReset, h2]
    rw [h3]
    exact ⟨rfl, (cleanupSessions_fields t s).1, rfl⟩

/-- C7 witness: the rollover statement evaluated at `S1` with a changed
date. -/
theorem daily_rollover_once_witness :
    (checkDailyReset "d1" S1).today = 0 ∧
    (checkDailyReset "d1" S1).peakToday = 0 ∧
    (checkDailyReset "d1" S1).lastReset = "d1" ∧
    (checkDailyReset "d1" S1).total = 1 ∧
    checkDailyReset "d1" (checkDailyReset "d1" S1) = checkDailyReset "d1" S1 ∧
    (getCounterStats 20 "d1" "t9" S1).2.today = 0 := by
  have h := daily_rollover_once S1 "d1" (by decide)
  exact ⟨h.1, h.2.1, h.2.2.1, h.2.2.2.1, h.2.2.2.2.1, (h.2.2.2.2.2 20 "t9").1⟩

/-- C8: the hourly series of `GetDetailedReport` has exactly 12 entries,
entry `j` describing the hour `nh - 11 + j` (so the series covers the 12
hours ending at the query hour, oldest first), each carrying the matching
hour bucket's count, or 0 when no bucket was recorded. -/
theorem detailed_report_trailing_hours (hk hl dk : Int → String) (nh nd t : Int)
    (d iso : String) (s : Stats) :
    (getDetailedStats hk hl dk nh nd t d iso s).1.hourly =
      (List.range 12).map (fun j =>
        ⟨hl (nh - 11 + (j : Int)),
         ((alookup s.hourlyStats (hk (nh - 11 + (j : Int)))).map HourStat.count).getD 0,
         hk (nh - 11 + (j : Int))⟩) ∧
    (getDetailedStats hk hl dk nh nd t d iso s).1.hourly.length = 12 := by
  have h1 : (getDetailedStats hk hl dk nh nd t d iso s).1.hourly =
      trailingHours hk hl nh (checkDailyReset d (cleanupSessions t s)).hourlyStats := rfl
  have h2 : (checkDailyReset d (cleanupSessions t s)).hourlyStats = s.hourlyStats := by
    rw [(checkDailyReset_fields _ _).2.2.2.2.1, (cleanupSessions_fields _ _).2.2.2.1]
  rw [h1, h2, trailingHours_closed]
  exact ⟨rfl, by simp⟩

/-- C9: a `Heartbeat` with either identifier missing (absent or empty)
returns `{success:false, online}` built from the stored `online`, with no
change at all to the state - in particular no change to the session set
or any counter - and without evaluating anything that could throw. -/
theorem heartbeat_missing_id_soft (sid uid : Option String) (t : Int) (s : Stats)
    (h : falsy sid = true ∨ falsy uid = true) :
    updateHeartbeat sid uid t s = (⟨false, s.online, none⟩, s) := by
  unfold updateHeartbeat
  rw [if_pos]
  rcases h with h | h <;> simp [h]

/-- C9 witness: a heartbeat with no `sessionId` on `S1`. -/
theorem heartbeat_missing_id_soft_witness :
    updateHeartbeat none (some "u1") 5 S1 = (⟨false, 1, none⟩, S1) :=
  heartbeat_missing_id_soft none (some "u1") 5 S1 (Or.inl rfl)

/-- C10 counterexample: the first missing-`userId` RecordEvent from the
zero state succeeds and reaches `SU1`, whose day bucket the trailing save
encoded in place; the second same-day missing-`userId` RecordEvent throws
the `TypeError` before the user upsert, so `user_undefined` still counts
1 execution even though `total` grew to 2. -/
theorem repeat_missing_userid_throws :
    recordEventM pU (initStats "d0") = (.ok r1, SU1) ∧
    (recordEventM pU2 SU1).1 =
      .error "TypeError: dayStat.uniqueUsers.add is not a function" ∧
    alookup (recordEventM pU2 SU1).2.uniqueUsers "user_undefined" =
      some ⟨none, "Alice", "t0", "t0", 1, [some "s1"]⟩ ∧
    (recordEventM pU2 SU1).2.total = 2 :=
  ⟨rfl, rfl, rfl, rfl⟩

/-- C10 amended: a `RecordEvent` with `userId` absent is never rejected
by validation and always increments `total` and `requestsCount`; when the
current day's bucket - after the pre-steps and their save effects - is
absent or still a live `Set`, the call also succeeds, increments `today`,
and creates or increments the `user_undefined` record, which the reported
`unique` counts.  (A bucket already encoded by a previous save instead
makes the call throw after the counter increments, leaving the record
untouched - see the counterexample.) -/
theorem record_event_missing_userid (p : EvtParams) (s : Stats)
    (hu : p.userId = none)
    (hday : dayOK p.todayStr
      (checkDailyResetM p.todayStr (cleanupSessionsM p.nowMs s)) = true) :
    (recordEventM p s).2.total = s.total + 1 ∧
    (recordEventM p s).2.requestsCount = s.requestsCount + 1 ∧
    ∃ r s2, recordEventM p s = (.ok r, s2) ∧
      r.success = true ∧
      s2.today = (checkDailyResetM p.todayStr (cleanupSessionsM p.nowMs s)).today + 1 ∧
      (∃ u, alookup s2.uniqueUsers "user_undefined" = some u ∧
         u.totalExecutions = (match alookup s.uniqueUsers "user_undefined" with
           | some u0 => u0.totalExecutions + 1
           | none => 1)) ∧
      r.stats.unique = s2.uniqueUsers.length := by
  obtain ⟨hT, hR⟩ := recordEventM_counters p s
  refine ⟨hT, hR, ?_⟩
  have hdsd : (bumpHour p.hourKey p.iso (updPeakToday (incTotals
      (checkDailyResetM p.todayStr (cleanupSessionsM p.nowMs s))))).dailyStats =
      (checkDailyResetM p.todayStr (cleanupSessionsM p.nowMs s)).dailyStats := by
    rw [(bumpHour_fields _ _ _).2.2.2.2.2.1, (updPeakToday_fields _).2.2.2.2.2.2.1,
        (incTotals_fields _).2.2.2.2.2.2.1]
  have hsdT : (bumpHour p.hourKey p.iso (updPeakToday (incTotals
      (checkDailyResetM p.todayStr (cleanupSessionsM p.nowMs s))))).today =
      (checkDailyResetM p.todayStr (cleanupSessionsM p.nowMs s)).today + 1 := by
    rw [(bumpHour_fields _ _ _).2.1, (updPeakToday_fields _).2.1,
        (incTotals_fields _).2.1]
  have hsdU : (bumpHour p.hourKey p.iso (updPeakToday (incTotals
      (checkDailyResetM p.todayStr (cleanupSessionsM p.nowMs s))))).uniqueUsers =
      s.uniqueUsers := by
    rw [(bumpHour_fields _ _ _).2.2.2.2.1, (updPeakToday_fields _).2.2.2.2.2.1,
        (incTotals_fields _).2.2.2.2.2.1, (checkDailyResetM_fields _ _).2.1,
        (cleanupSessionsM_fields _ _).2.2.1]
  unfold dayOK at hday
  unfold recordEventM
  dsimp only
  cases hl : alookup
      (checkDailyResetM p.todayStr (cleanupSessionsM p.nowMs s)).dailyStats
      p.todayStr with
  | none =>
    have hb1 : alookup (bumpHour p.hourKey p.iso (updPeakToday (incTotals
        (checkDailyResetM p.todayStr (cleanupSessionsM p.nowMs s))))).dailyStats
        p.todayStr = none := by rw [hdsd]; exact hl
    unfold bumpDayM
    rw [hb1]
    dsimp only
    obtain ⟨htoday, u, hu1, hu2⟩ := recordTail_spec p
      (bumpHour p.hourKey p.iso (updPeakToday (incTotals
        (checkDailyResetM p.todayStr (cleanupSessionsM p.nowMs s)))))
      (aset (bumpHour p.hourKey p.iso (updPeakToday (incTotals
        (checkDailyResetM p.todayStr (cleanupSessionsM p.nowMs s))))).dailyStats
        p.todayStr ⟨p.todayStr, 1, .set [p.userId]⟩) hu
    refine ⟨_, _, rfl, rfl, htoday.trans hsdT, ⟨u, hu1, ?_⟩, rfl⟩
    rw [hsdU] at hu2
    exact hu2
  | some ds =>
    rw [hl] at hday
    dsimp only at hday
    cases hds : ds.uniqueUsers with
    | arr l =>
      rw [hds] at hday
      exact absurd hday (by simp [UUField.isSet])
    | set l =>
      have hb1 : alookup (bumpHour p.hourKey p.iso (updPeakToday (incTotals
          (checkDailyResetM p.todayStr (cleanupSessionsM p.nowMs s))))).dailyStats
          p.todayStr = some ds := by rw [hdsd]; exact hl
      unfold bumpDayM
      rw [hb1]
      dsimp only
      rw [hds]
      dsimp only
      obtain ⟨htoday, u, hu1, hu2⟩ := recordTail_spec p
        (bumpHour p.hourKey p.iso (updPeakToday (incTotals
          (checkDailyResetM p.todayStr (cleanupSessionsM p.nowMs s)))))
        (aset (bumpHour p.hourKey p.iso (updPeakToday (incTotals
          (checkDailyResetM p.todayStr (cleanupSessionsM p.nowMs s))))).dailyStats
          p.todayStr ⟨ds.date, ds.count + 1, .set (saddO l p.userId)⟩) hu
      refine ⟨_, _, rfl, rfl, htoday.trans hsdT, ⟨u, hu1, ?_⟩, rfl⟩
      rw [hsdU] at hu2
      exact hu2

/-- C10 witness: the amended statement evaluated on the first
missing-`userId` event from the zero state. -/
theorem record_event_missing_userid_witness :
    (recordEventM pU (initStats "d0")).2.total = (initStats "d0").total + 1 ∧
    (recordEventM pU (initStats "d0")).2.requestsCount
      = (initStats "d0").requestsCount + 1 ∧
    ∃ r s2, recordEventM pU (initStats "d0") = (.ok r, s2) ∧
      r.success = true ∧
      s2.today = (checkDailyResetM "d0" (cleanupSessionsM 0 (initStats "d0"))).today + 1 ∧
      (∃ u, alookup s2.uniqueUsers "user_undefined" = some u ∧
         u.totalExecutions = 1) ∧
      r.stats.unique = s2.uniqueUsers.length :=
  record_event_missing_userid pU (initStats "d0") rfl (by decide)
